import Mathlib

/-!
Shallow embedding of the RCON client core (`src/rconbot/rcon.py`):
the packet codec (`_build_packet`, `_recv_packet`, `_recv_text_packet`,
`_send_packet`, `_send_text_packet`) and the session operations
(`login`, `execute`) with their request-id counter.

Modelling conventions:
* a byte string is a `List Nat` of byte values;
* the TCP read side is a pull on an explicit input stream `List Nat`:
  `reader.read n` is `take n` (it returns at most `n` bytes, fewer when the
  stream is exhausted), and the functions return the unconsumed remainder;
* a Python `str` is represented by its UTF-8 byte encoding (a `List Nat`),
  since the code only ever observes the encoded form;
* Python exceptions become the `RErr` error type of an `Except`; each
  constructor corresponds to one distinct `raise` site of the source.
-/

/-- Decidable equality for `Except`, so that concrete codec runs can be
checked by `decide`. -/
instance {ε α : Type} [DecidableEq ε] [DecidableEq α] : DecidableEq (Except ε α) := fun a b =>
  match a, b with
  | .error e, .error f =>
    if h : e = f then .isTrue (by rw [h]) else .isFalse (by intro hh; cases hh; exact h rfl)
  | .error _, .ok _ => .isFalse (by intro h; cases h)
  | .ok _, .error _ => .isFalse (by intro h; cases h)
  | .ok x, .ok y =>
    if h : x = y then .isTrue (by rw [h]) else .isFalse (by intro hh; cases hh; exact h rfl)

namespace RCON

/-- Error kinds, one per `raise` site of `src/rconbot/rcon.py`.
The spec taxonomy maps onto them as follows:
`badLengthRead`, `tooSmallPacket`, `tooBigPacket`, `lengthMismatch`
are FramingError; `notZeroTerminated` is MissingTerminator;
`tooLargeData` is PayloadTooLarge; `intOverflow` is Python's
`OverflowError` from `int.to_bytes`; `invalidRequestId` is
AuthenticationFailed (in `login`) / CorrelationMismatch (in `execute`);
`invalidResponseType` is UnexpectedType. -/
inductive RErr where
  | badLengthRead (got : Nat)
  | tooSmallPacket (n : Nat)
  | tooBigPacket (n : Nat)
  | lengthMismatch (expected got : Nat)
  | notZeroTerminated
  | tooLargeData (n : Nat)
  | intOverflow (x : Int)
  | invalidRequestId (expected got : Int)
  | invalidResponseType (got : Int)
  deriving DecidableEq

/-- Embeds the `Packet` dataclass on the decode side, where `data` is
always `bytes`. -/
structure Packet where
  request_id : Int
  type : Int
  data : List Nat
  deriving DecidableEq

/-- Outbound packet data: Python `str` (held as its UTF-8 bytes) or raw
`bytes`, the two branches of the `isinstance` chain in `_build_packet`. -/
inductive PData where
  | str (utf8 : List Nat)
  | bytes (raw : List Nat)

/-- The encoded bytes of a `PData` (`str.encode()` for the text branch,
identity for the bytes branch). -/
def PData.asBytes : PData → List Nat
  | .str s => s
  | .bytes b => b

/-- Little-endian value of a byte list, `int.from_bytes(l, "little")`. -/
def bytesToNatLE (l : List Nat) : Nat :=
  l.foldr (fun b acc => b + 256 * acc) 0

/-- Signed 32-bit little-endian decode of a 4-byte list,
`int.from_bytes(l, "little", signed=True)`. -/
def i32ofBytesLE (l : List Nat) : Int :=
  let u := bytesToNatLE l
  if u < 2 ^ 31 then (u : Int) else (u : Int) - 2 ^ 32

/-- `n.to_bytes(4, "little", signed=False)` for `n < 2^32`. -/
def natToU32LE (n : Nat) : List Nat :=
  [n % 256, n / 256 % 256, n / 2 ^ 16 % 256, n / 2 ^ 24 % 256]

/-- `x.to_bytes(4, "little", signed=True)` for a 32-bit signed `x`. -/
def intToI32LE (x : Int) : List Nat :=
  natToU32LE ((x % 2 ^ 32).toNat)

/-- Embeds `_build_packet`: encode the data, reject more than 4096 encoded
bytes, then lay out `request_id (i32 LE) || type (i32 LE) || data || 0x00`.
The two `intOverflow` checks embed Python's `int.to_bytes` raising
`OverflowError` on a value outside the signed 32-bit range. -/
def build_packet (request_id ptype : Int) (data : PData) : Except RErr (List Nat) :=
  let d := data.asBytes
  if 4096 < d.length then .error (.tooLargeData d.length)
  else if request_id < -(2 ^ 31) ∨ (2 ^ 31 : Int) ≤ request_id then
    .error (.intOverflow request_id)
  else if ptype < -(2 ^ 31) ∨ (2 ^ 31 : Int) ≤ ptype then
    .error (.intOverflow ptype)
  else .ok (intToI32LE request_id ++ intToI32LE ptype ++ d ++ [0])

/-- Embeds `_send_packet`: the framed bytes written to the transport,
`len(payload) (u32 LE) || payload`. -/
def send_packet (request_id ptype : Int) (data : PData) : Except RErr (List Nat) :=
  match build_packet request_id ptype data with
  | .error e => .error e
  | .ok payload => .ok (natToU32LE payload.length ++ payload)

/-- Embeds `_send_text_packet`: append the null terminator to the UTF-8
text, then delegate to `_send_packet` with a `bytes` payload. -/
def send_text_packet (request_id ptype : Int) (text : List Nat) : Except RErr (List Nat) :=
  send_packet request_id ptype (.bytes (text ++ [0]))

/-- Embeds `_recv_packet` on an explicit input stream: read the 4-byte
length prefix, bound-check it against `[9, 1455]`, read the body, check the
byte count, then split the body into `request_id` (bytes 0..4, i32 LE),
`type` (bytes 4..8, i32 LE), and `data` (`body[8:-1]`, dropping the pad
byte). Returns the packet and the unconsumed remainder of the stream. -/
def recv_packet (s : List Nat) : Except RErr (Packet × List Nat) :=
  if (s.take 4).length ≠ 4 then .error (.badLengthRead (s.take 4).length)
  else
    let n := bytesToNatLE (s.take 4)
    if n < 9 then .error (.tooSmallPacket n)
    else if 1455 < n then .error (.tooBigPacket n)
    else
      let body := (s.drop 4).take n
      if body.length ≠ n then .error (.lengthMismatch n body.length)
      else
        .ok ({ request_id := i32ofBytesLE (body.take 4),
               type := i32ofBytesLE ((body.drop 4).take 4),
               data := (body.drop 8).dropLast },
             (s.drop 4).drop n)

/-- Embeds `_recv_text_packet`: receive a generic packet, require a null
byte in its data (`d.find(b"\x00")`), and truncate the data to the bytes
before the first null. -/
def recv_text_packet (s : List Nat) : Except RErr (Packet × List Nat) :=
  match recv_packet s with
  | .error e => .error e
  | .ok (p, rest) =>
    if p.data.contains 0 then
      .ok ({ p with data := p.data.takeWhile (fun b => b != 0) }, rest)
    else .error .notZeroTerminated

/-- A successful `recv_packet` consumes at least 13 bytes of the stream:
4 for the length prefix and at least 9 for the body. Used for termination
of the `execute` receive loop. -/
theorem recv_packet_consumes {s : List Nat} {p : Packet} {rest : List Nat}
    (h : recv_packet s = .ok (p, rest)) : rest.length < s.length := by
  simp only [recv_packet] at h
  split at h
  · cases h
  · split at h
    · cases h
    · split at h
      · cases h
      · split at h
        · cases h
        · rename_i h4 hn9 _ hlen
          cases h
          simp only [List.length_take, List.length_drop, ne_eq, not_not] at *
          omega

/-- A successful `recv_text_packet` consumes part of the stream. -/
theorem recv_text_packet_consumes {s : List Nat} {p : Packet} {rest : List Nat}
    (h : recv_text_packet s = .ok (p, rest)) : rest.length < s.length := by
  unfold recv_text_packet at h
  split at h
  · cases h
  · rename_i p' rest' heq
    split at h
    · cases h
      exact recv_packet_consumes heq
    · cases h

/-- Session state: the `_i` request-id counter of `RCONClient`
(a Python `int`, never wrapped by the client itself). -/
structure ClientState where
  i : Int
  deriving DecidableEq

/-- Embeds the `while True` receive loop of `RCONClient.execute`:
receive a text packet, check the echoed request id against `i`, check the
type against `PacketType.RESPONSE.value = 0`, append the data to the
accumulator, and stop as soon as a data fragment is shorter than 4096
bytes. Returns the accumulated response and the unconsumed stream. -/
def executeLoop (i : Int) (input acc : List Nat) : Except RErr (List Nat × List Nat) :=
  match h : recv_text_packet input with
  | .error e => .error e
  | .ok (p, rest) =>
    if p.request_id ≠ i then .error (.invalidRequestId i p.request_id)
    else if p.type ≠ 0 then .error (.invalidResponseType p.type)
    else if p.data.length < 4096 then .ok (acc ++ p.data, rest)
    else executeLoop i rest (acc ++ p.data)
termination_by input.length
decreasing_by exact recv_text_packet_consumes h

/-- Embeds `RCONClient.login`: allocate the current counter value as the
request id, increment the counter (before any I/O, as in the source),
send `{id=i, type=LOGIN=3, data=password}` as a text packet, receive one
generic packet, and fail unless its request id echoes `i`. The updated
counter is returned even on failure, matching the mutation of `self._i`.
Returns the unconsumed input stream on success. -/
def login (st : ClientState) (password input : List Nat) :
    ClientState × Except RErr (List Nat) :=
  (⟨st.i + 1⟩,
    match send_text_packet st.i 3 password with
    | .error e => .error e
    | .ok _ =>
      match recv_packet input with
      | .error e => .error e
      | .ok (p, rest) =>
        if p.request_id ≠ st.i then .error (.invalidRequestId st.i p.request_id)
        else .ok rest)

/-- Embeds `RCONClient.execute`: allocate the current counter value as the
request id, increment the counter, send `{id=i, type=EXECUTE=2,
data=command}` as a text packet, then run the receive loop. -/
def execute (st : ClientState) (command input : List Nat) :
    ClientState × Except RErr (List Nat × List Nat) :=
  (⟨st.i + 1⟩,
    match send_text_packet st.i 2 command with
    | .error e => .error e
    | .ok _ => executeLoop st.i input [])

/-- A well-formed wire frame as sent by a conforming server: length prefix
`data.length + 9`, then `request_id || type || data || 0x00`. This is a
test-harness constructor for building concrete input streams; it is the
same layout `_send_packet` produces. -/
def frameBytes (request_id ptype : Int) (data : List Nat) : List Nat :=
  natToU32LE (data.length + 9) ++
    (intToI32LE request_id ++ (intToI32LE ptype ++ (data ++ [0])))

theorem natToU32LE_length (n : Nat) : (natToU32LE n).length = 4 := rfl

theorem bytesToNatLE_natToU32LE {n : Nat} (h : n < 2 ^ 32) :
    bytesToNatLE (natToU32LE n) = n := by
  simp only [bytesToNatLE, natToU32LE, List.foldr]
  omega

theorem i32ofBytesLE_intToI32LE {x : Int} (h1 : -(2 ^ 31) ≤ x) (h2 : x < 2 ^ 31) :
    i32ofBytesLE (intToI32LE x) = x := by
  simp only [i32ofBytesLE, intToI32LE, bytesToNatLE, natToU32LE, List.foldr]
  split <;> omega

/-- Behaviour of `_recv_packet` on a stream starting with one complete
well-formed frame: the declared length is honoured, the body is split into
the three fields, and the remainder of the stream is untouched. -/
theorem recv_packet_frame {n : Nat} (body rest0 : List Nat)
    (h9 : 9 ≤ n) (h1455 : n ≤ 1455) (hlen : body.length = n) :
    recv_packet (natToU32LE n ++ body ++ rest0) =
      .ok ({ request_id := i32ofBytesLE (body.take 4),
             type := i32ofBytesLE ((body.drop 4).take 4),
             data := (body.drop 8).dropLast }, rest0) := by
  have ht : (natToU32LE n ++ body ++ rest0).take 4 = natToU32LE n := by
    rw [List.append_assoc]
    exact List.take_left' (natToU32LE_length n)
  have hd : (natToU32LE n ++ body ++ rest0).drop 4 = body ++ rest0 := by
    rw [List.append_assoc]
    exact List.drop_left' (natToU32LE_length n)
  have hb : bytesToNatLE (natToU32LE n) = n := bytesToNatLE_natToU32LE (by omega)
  have c2 : ¬ (n < 9) := by omega
  have c3 : ¬ (1455 < n) := by omega
  simp [recv_packet, ht, hd, hb, natToU32LE_length, List.take_left' hlen,
    List.drop_left' hlen, hlen, c2, c3]

/-- The data of any packet accepted by `_recv_packet` has at most
1455 − 9 = 1446 bytes: the frame bound minus eight header bytes and the
pad byte. -/
theorem recv_packet_data_le {s : List Nat} {p : Packet} {rest : List Nat}
    (h : recv_packet s = .ok (p, rest)) : p.data.length ≤ 1446 := by
  simp only [recv_packet] at h
  split at h
  · cases h
  · split at h
    · cases h
    · split at h
      · cases h
      · split at h
        · cases h
        · rename_i h4 h9 h1455 hlen
          cases h
          simp only [List.length_dropLast, List.length_drop, List.length_take,
            ne_eq, not_not, not_lt] at *
          omega

theorem length_takeWhile_le (q : Nat → Bool) (l : List Nat) :
    (l.takeWhile q).length ≤ l.length := by
  induction l with
  | nil => simp [List.takeWhile]
  | cons a t ih =>
    simp only [List.takeWhile]
    split
    · simpa using ih
    · simp

/-- The data of any packet accepted by `_recv_text_packet` also has at
most 1446 bytes: truncation at the first null only shortens it. -/
theorem recv_text_packet_data_le {s : List Nat} {p : Packet} {rest : List Nat}
    (h : recv_text_packet s = .ok (p, rest)) : p.data.length ≤ 1446 := by
  unfold recv_text_packet at h
  split at h
  · cases h
  · rename_i p' rest' heq
    split at h
    · cases h
      calc (p'.data.takeWhile (fun b => b != 0)).length
          ≤ p'.data.length := length_takeWhile_le _ _
        _ ≤ 1446 := recv_packet_data_le heq
    · cases h

/-- The receive loop propagates a receive failure unchanged. -/
theorem executeLoop_eq_error {i : Int} {input acc : List Nat} {e : RErr}
    (h : recv_text_packet input = .error e) :
    executeLoop i input acc = .error e := by
  rw [executeLoop]
  split
  · rename_i e' he
    rw [he] at h
    cases h
    rfl
  · rename_i p rest he
    rw [he] at h
    simp at h

/-- One successful receive step of the loop: the id check, then the type
check, then accumulation; the loop exits exactly on a fragment shorter
than 4096 bytes. -/
theorem executeLoop_eq_ok {i : Int} {input acc : List Nat} {p : Packet} {rest : List Nat}
    (h : recv_text_packet input = .ok (p, rest)) :
    executeLoop i input acc =
      if p.request_id ≠ i then .error (.invalidRequestId i p.request_id)
      else if p.type ≠ 0 then .error (.invalidResponseType p.type)
      else if p.data.length < 4096 then .ok (acc ++ p.data, rest)
      else executeLoop i rest (acc ++ p.data) := by
  rw [executeLoop]
  split
  · rename_i e' he
    rw [he] at h
    simp at h
  · rename_i p' rest' he
    rw [he] at h
    injection h with h1
    injection h1 with hp hr
    subst hp
    subst hr
    rfl

theorem intToI32LE_length (x : Int) : (intToI32LE x).length = 4 := rfl

/-- `_recv_packet` on a stream shorter than the 4-byte length prefix. -/
theorem recv_packet_badRead {s : List Nat} (h : s.length < 4) :
    recv_packet s = .error (.badLengthRead s.length) := by
  have h4 : (s.take 4).length = s.length := by
    simp only [List.length_take]
    omega
  simp only [recv_packet, h4]
  rw [if_pos (by omega)]

/-- `_recv_packet` when the declared length is below 9. -/
theorem recv_packet_tooSmall {s : List Nat} (h4 : (s.take 4).length = 4)
    (h : bytesToNatLE (s.take 4) < 9) :
    recv_packet s = .error (.tooSmallPacket (bytesToNatLE (s.take 4))) := by
  simp only [recv_packet, h4]
  rw [if_neg (by simp), if_pos h]

/-- `_recv_packet` when the declared length is above 1455. -/
theorem recv_packet_tooBig {s : List Nat} (h4 : (s.take 4).length = 4)
    (h9 : 9 ≤ bytesToNatLE (s.take 4)) (h : 1455 < bytesToNatLE (s.take 4)) :
    recv_packet s = .error (.tooBigPacket (bytesToNatLE (s.take 4))) := by
  simp only [recv_packet, h4]
  rw [if_neg (by simp), if_neg (by omega), if_pos h]

/-- `_recv_packet` when the stream delivers fewer body bytes than the
declared length (stream ended mid-read). -/
theorem recv_packet_lengthMismatch {s : List Nat} (h4 : (s.take 4).length = 4)
    (h9 : 9 ≤ bytesToNatLE (s.take 4)) (h1455 : bytesToNatLE (s.take 4) ≤ 1455)
    (hshort : ((s.drop 4).take (bytesToNatLE (s.take 4))).length ≠ bytesToNatLE (s.take 4)) :
    recv_packet s =
      .error (.lengthMismatch (bytesToNatLE (s.take 4))
        ((s.drop 4).take (bytesToNatLE (s.take 4))).length) := by
  simp only [recv_packet, h4]
  rw [if_neg (by simp), if_neg (by omega), if_neg (by omega), if_pos hshort]

/-- `_recv_text_packet` propagates a `_recv_packet` failure unchanged. -/
theorem recv_text_packet_eq_error {s : List Nat} {e : RErr}
    (h : recv_packet s = .error e) : recv_text_packet s = .error e := by
  unfold recv_text_packet
  rw [h]

/-- `_recv_text_packet` after a successful `_recv_packet`: the null-byte
requirement and truncation at the first null. -/
theorem recv_text_packet_eq_of_ok {s : List Nat} {p : Packet} {rest : List Nat}
    (h : recv_packet s = .ok (p, rest)) :
    recv_text_packet s =
      (if p.data.contains 0 then
        .ok ({ p with data := p.data.takeWhile (fun b => b != 0) }, rest)
      else .error .notZeroTerminated) := by
  unfold recv_text_packet
  rw [h]

/-- `_recv_packet` on one complete frame built by `frameBytes`: decoding
inverts encoding when the data fits the frame bound. -/
theorem recv_packet_encoded {request_id ptype : Int} (d rest0 : List Nat)
    (hid1 : -(2 ^ 31) ≤ request_id) (hid2 : request_id < 2 ^ 31)
    (hty1 : -(2 ^ 31) ≤ ptype) (hty2 : ptype < 2 ^ 31)
    (hd : d.length ≤ 1446) :
    recv_packet (frameBytes request_id ptype d ++ rest0) =
      .ok (⟨request_id, ptype, d⟩, rest0) := by
  have hblen : (intToI32LE request_id ++ (intToI32LE ptype ++ (d ++ [0]))).length
      = d.length + 9 := by
    simp [intToI32LE_length]
    omega
  have key := recv_packet_frame (n := d.length + 9)
    (intToI32LE request_id ++ (intToI32LE ptype ++ (d ++ [0]))) rest0
    (by omega) (by omega) hblen
  have e1 : (intToI32LE request_id ++ (intToI32LE ptype ++ (d ++ [0]))).take 4
      = intToI32LE request_id := List.take_left' (intToI32LE_length _)
  have e2 : (intToI32LE request_id ++ (intToI32LE ptype ++ (d ++ [0]))).drop 4
      = intToI32LE ptype ++ (d ++ [0]) := List.drop_left' (intToI32LE_length _)
  have e3 : (intToI32LE ptype ++ (d ++ [0])).take 4 = intToI32LE ptype :=
    List.take_left' (intToI32LE_length _)
  have e5 : (intToI32LE request_id ++ (intToI32LE ptype ++ (d ++ [0]))).drop 8
      = d ++ [0] := by
    rw [show (8 : Nat) = 4 + 4 from rfl, ← List.drop_drop, e2,
      List.drop_left' (intToI32LE_length _)]
  unfold frameBytes
  rw [key, e1, e2, e3, e5, List.dropLast_concat,
    i32ofBytesLE_intToI32LE hid1 hid2, i32ofBytesLE_intToI32LE hty1 hty2]

/-- `_build_packet` succeeds on in-range inputs and produces the
documented layout. -/
theorem build_packet_ok (request_id ptype : Int) (data : PData)
    (hlen : data.asBytes.length ≤ 4096)
    (hid1 : -(2 ^ 31) ≤ request_id) (hid2 : request_id < 2 ^ 31)
    (hty1 : -(2 ^ 31) ≤ ptype) (hty2 : ptype < 2 ^ 31) :
    build_packet request_id ptype data =
      .ok (intToI32LE request_id ++ intToI32LE ptype ++ data.asBytes ++ [0]) := by
  simp only [build_packet]
  rw [if_neg (by omega), if_neg (by omega), if_neg (by omega)]

/-- `_send_packet` on in-range inputs: the framed bytes put on the wire. -/
theorem send_packet_ok (request_id ptype : Int) (data : PData)
    (hlen : data.asBytes.length ≤ 4096)
    (hid1 : -(2 ^ 31) ≤ request_id) (hid2 : request_id < 2 ^ 31)
    (hty1 : -(2 ^ 31) ≤ ptype) (hty2 : ptype < 2 ^ 31) :
    send_packet request_id ptype data =
      .ok (frameBytes request_id ptype data.asBytes) := by
  have hl : (intToI32LE request_id ++ intToI32LE ptype ++ data.asBytes ++ [0]).length
      = data.asBytes.length + 9 := by
    simp [intToI32LE_length]
    omega
  simp only [send_packet, build_packet_ok _ _ _ hlen hid1 hid2 hty1 hty2]
  rw [hl]
  unfold frameBytes
  simp [List.append_assoc]

/-- `_send_text_packet` on an in-range text: same as sending the
null-terminated text as raw bytes. -/
theorem send_text_packet_ok (request_id ptype : Int) (text : List Nat)
    (hlen : text.length ≤ 4095)
    (hid1 : -(2 ^ 31) ≤ request_id) (hid2 : request_id < 2 ^ 31)
    (hty1 : -(2 ^ 31) ≤ ptype) (hty2 : ptype < 2 ^ 31) :
    send_text_packet request_id ptype text =
      .ok (frameBytes request_id ptype (text ++ [0])) := by
  unfold send_text_packet
  exact send_packet_ok _ _ _ (by simp [PData.asBytes]; omega) hid1 hid2 hty1 hty2

/-- After a successful send, `execute`'s outcome is that of the receive
loop started with an empty accumulator. -/
theorem execute_eq_loop {st : ClientState} {cmd input : List Nat} {w : List Nat}
    (hs : send_text_packet st.i 2 cmd = .ok w) :
    (execute st cmd input).2 = executeLoop st.i input [] := by
  simp only [execute]
  rw [hs]

/-- After a successful send, `login`'s outcome is determined by one
generic packet receive and the request-id comparison. -/
theorem login_eq_recv {st : ClientState} {password input : List Nat} {w : List Nat}
    (hs : send_text_packet st.i 3 password = .ok w) :
    (login st password input).2 =
      (match recv_packet input with
       | .error e => .error e
       | .ok (p, rest) =>
         if p.request_id ≠ st.i then .error (.invalidRequestId st.i p.request_id)
         else .ok rest) := by
  simp only [login]
  rw [hs]

/-- A frame whose 4-byte prefix declares a length below 9 is rejected,
whatever follows the prefix. -/
theorem recv_packet_declared_tooSmall {m : Nat} (b : List Nat) (hm : m < 9) :
    recv_packet (natToU32LE m ++ b) = .error (.tooSmallPacket m) := by
  have htk : (natToU32LE m ++ b).take 4 = natToU32LE m :=
    List.take_left' (natToU32LE_length m)
  have hb : bytesToNatLE ((natToU32LE m ++ b).take 4) = m := by
    rw [htk]
    exact bytesToNatLE_natToU32LE (by omega)
  have key := recv_packet_tooSmall (s := natToU32LE m ++ b)
    (by rw [htk]; rfl) (by rw [hb]; omega)
  rw [hb] at key
  exact key

/-- A frame whose 4-byte prefix declares a length above 1455 is rejected,
whatever follows the prefix. -/
theorem recv_packet_declared_tooBig {m : Nat} (b : List Nat)
    (hm : 1455 < m) (hm32 : m < 2 ^ 32) :
    recv_packet (natToU32LE m ++ b) = .error (.tooBigPacket m) := by
  have htk : (natToU32LE m ++ b).take 4 = natToU32LE m :=
    List.take_left' (natToU32LE_length m)
  have hb : bytesToNatLE ((natToU32LE m ++ b).take 4) = m := by
    rw [htk]
    exact bytesToNatLE_natToU32LE hm32
  have key := recv_packet_tooBig (s := natToU32LE m ++ b)
    (by rw [htk]; rfl) (by rw [hb]; omega) (by rw [hb]; omega)
  rw [hb] at key
  exact key

/-- A frame whose declared length is in bounds but whose stream holds
fewer body bytes than declared is rejected: `read` returns what is left
and the count check fails. -/
theorem recv_packet_declared_mismatch {m : Nat} (b : List Nat)
    (h9 : 9 ≤ m) (h1455 : m ≤ 1455) (hshort : b.length < m) :
    recv_packet (natToU32LE m ++ b) = .error (.lengthMismatch m b.length) := by
  have htk : (natToU32LE m ++ b).take 4 = natToU32LE m :=
    List.take_left' (natToU32LE_length m)
  have htd : (natToU32LE m ++ b).drop 4 = b :=
    List.drop_left' (natToU32LE_length m)
  have hb : bytesToNatLE ((natToU32LE m ++ b).take 4) = m := by
    rw [htk]
    exact bytesToNatLE_natToU32LE (by omega)
  have hbody : ((natToU32LE m ++ b).drop 4).take (bytesToNatLE ((natToU32LE m ++ b).take 4))
      = b := by
    rw [htd, hb]
    exact List.take_of_length_le (by omega)
  have hbody2 : ((natToU32LE m ++ b).drop 4).take m = b := by
    rw [htd]
    exact List.take_of_length_le (by omega)
  have key := recv_packet_lengthMismatch (s := natToU32LE m ++ b)
    (by rw [htk]; rfl) (by rw [hb]; omega) (by rw [hb]; omega)
    (by rw [hbody, hb]; omega)
  rw [hb, hbody2] at key
  exact key

/-- A frame whose declared length is in bounds and whose body is fully
present decodes structurally, consuming the whole stream. -/
theorem recv_packet_declared_ok {m : Nat} (b : List Nat)
    (h9 : 9 ≤ m) (h1455 : m ≤ 1455) (hlen : b.length = m) :
    recv_packet (natToU32LE m ++ b) =
      .ok (⟨i32ofBytesLE (b.take 4), i32ofBytesLE ((b.drop 4).take 4),
            (b.drop 8).dropLast⟩, []) := by
  have key := recv_packet_frame (n := m) b [] h9 h1455 hlen
  simpa using key

theorem mem_takeWhile_ne_zero {l : List Nat} {a : Nat}
    (h : a ∈ l.takeWhile (fun b => b != 0)) : a ≠ 0 := by
  have := List.mem_takeWhile_imp h
  simpa using this

theorem dropWhile_ne_zero_eq_zero_cons {l : List Nat} (h : 0 ∈ l) :
    ∃ t, l.dropWhile (fun b => b != 0) = 0 :: t := by
  induction l with
  | nil => cases h
  | cons a tl ih =>
    by_cases ha : a = 0
    · subst ha
      exact ⟨tl, by simp [List.dropWhile_cons]⟩
    · have hm : 0 ∈ tl := by
        rcases List.mem_cons.mp h with h' | h'
        · exact absurd h'.symm ha
        · exact h'
      obtain ⟨t, ht⟩ := ih hm
      refine ⟨t, ?_⟩
      rw [List.dropWhile_cons, if_pos (by simpa using ha), ht]

/-- Splitting a byte list containing a null at its first null: the list is
the null-free truncation, the first null, and a tail. -/
theorem take_until_zero_split {l : List Nat} (h : 0 ∈ l) :
    ∃ t, l = l.takeWhile (fun b => b != 0) ++ 0 :: t ∧
      ¬ 0 ∈ l.takeWhile (fun b => b != 0) := by
  obtain ⟨t, ht⟩ := dropWhile_ne_zero_eq_zero_cons h
  refine ⟨t, ?_, fun hm => (mem_takeWhile_ne_zero hm) rfl⟩
  conv_lhs => rw [← List.takeWhile_append_dropWhile (p := fun b => b != 0) (l := l)]
  rw [ht]

/-- Truncation at the first null recovers exactly a null-free text payload
that was null-terminated by `_send_text_packet`. -/
theorem takeWhile_ne_zero_append_zero {text : List Nat} (hz : ¬ 0 ∈ text) :
    (text ++ [0]).takeWhile (fun b => b != 0) = text := by
  induction text with
  | nil => simp [List.takeWhile_cons]
  | cons a tl ih =>
    have ha : a ≠ 0 := fun h => hz (by simp [h])
    have htl : ¬ 0 ∈ tl := fun h => hz (by simp [h])
    rw [List.cons_append, List.takeWhile_cons, if_pos (by simpa using ha), ih htl]

theorem contains_zero_append_zero (text : List Nat) :
    (text ++ [0]).contains 0 = true := by
  simp [List.contains]

theorem contains_zero_of_mem {l : List Nat} (h : 0 ∈ l) : l.contains 0 = true := by
  simpa [List.contains] using h

theorem not_contains_zero_of_not_mem {l : List Nat} (h : ¬ 0 ∈ l) :
    ¬ l.contains 0 = true := by
  simpa [List.contains] using h

/-- A frame built by `frameBytes` whose data makes the declared length
exceed 1455 is rejected by `_recv_packet` before its body is examined. -/
theorem recv_packet_frameBytes_tooBig (request_id ptype : Int) (d rest0 : List Nat)
    (h : 1455 < d.length + 9) (h32 : d.length + 9 < 2 ^ 32) :
    recv_packet (frameBytes request_id ptype d ++ rest0) =
      .error (.tooBigPacket (d.length + 9)) := by
  have hshape : frameBytes request_id ptype d ++ rest0 =
      natToU32LE (d.length + 9) ++
        ((intToI32LE request_id ++ (intToI32LE ptype ++ (d ++ [0]))) ++ rest0) := by
    unfold frameBytes
    rw [List.append_assoc]
  rw [hshape]
  exact recv_packet_declared_tooBig _ h h32

/-- Claim C1, counterexample. The claim asserts that a response of one
4096-byte fragment followed by a 10-byte fragment yields the 4106-byte
concatenation. On the code it does not: a fragment whose decoded payload
is 4096 bytes needs a frame of declared length 4106 (8 header bytes, 4096
data bytes plus their null terminator, 1 pad byte), and `_recv_packet`
rejects any declared length above 1455, so `execute` fails with the
framing error `tooBigPacket` instead of returning 4106 bytes. -/
theorem C1_counterexample :
    (execute ⟨0⟩ [108, 105, 115, 116]
        (frameBytes 0 0 (List.replicate 4096 65 ++ [0]) ++
          frameBytes 0 0 (List.replicate 10 66 ++ [0]))).2 =
      .error (.tooBigPacket 4106) := by
  rw [execute_eq_loop (send_text_packet_ok _ _ _ (by decide) (by decide) (by decide)
    (by decide) (by decide))]
  have hbig := recv_packet_frameBytes_tooBig 0 0 (List.replicate 4096 65 ++ [0])
    (frameBytes 0 0 (List.replicate 10 66 ++ [0]))
    (by simp only [List.length_append, List.length_replicate, List.length_cons,
      List.length_nil]; omega)
    (by simp only [List.length_append, List.length_replicate, List.length_cons,
      List.length_nil]; omega)
  have hlen : (List.replicate (4096 : Nat) (65 : Nat) ++ [0]).length + 9 = 4106 := by
    simp only [List.length_append, List.length_replicate, List.length_cons, List.length_nil]
  rw [hlen] at hbig
  exact executeLoop_eq_error (recv_text_packet_eq_error hbig)

/-- Claim C1, amended. The receive loop's exit test is indeed
`payload length < 4096`, but every fragment accepted by the receive path
carries at most 1446 data bytes, which is strictly below 4096, so the
loop appends exactly one fragment and exits on its first successful
iteration; a fragment of 4096 decoded bytes can never be received
(see `C1_counterexample`). -/
theorem C1_amended {i : Int} {input : List Nat} (acc : List Nat) {p : Packet} {rest : List Nat}
    (hr : recv_text_packet input = .ok (p, rest))
    (hid : p.request_id = i) (hty : p.type = 0) :
    p.data.length < 4096 ∧ executeLoop i input acc = .ok (acc ++ p.data, rest) := by
  have hle := recv_text_packet_data_le hr
  refine ⟨by omega, ?_⟩
  rw [executeLoop_eq_ok hr]
  simp [hid, hty, show p.data.length < 4096 by omega]

/-- Witness for `C1_amended` at a concrete one-fragment stream. -/
theorem C1_amended_witness :
    recv_text_packet (frameBytes 7 0 [65, 0]) = .ok (⟨7, 0, [65]⟩, []) ∧
    (⟨7, 0, [65]⟩ : Packet).data.length < 4096 ∧
    executeLoop 7 (frameBytes 7 0 [65, 0]) [] = .ok ([65], []) := by
  have hr : recv_text_packet (frameBytes 7 0 [65, 0]) = .ok (⟨7, 0, [65]⟩, []) := by decide
  have key := C1_amended [] hr rfl rfl
  exact ⟨hr, key.1, by simpa using key.2⟩

/-- Claim C2: every fragment accepted by the text receive path has at most
1455 − 8 − 1 = 1446 data bytes, strictly below 4096; consequently every
`execute` call that returns successfully consumed exactly one response
packet — its whole result is that packet's data and the loop body never
ran a second time. -/
theorem C2_single_fragment (s : List Nat) :
    (∀ (p : Packet) (rest : List Nat), recv_text_packet s = .ok (p, rest) →
      p.data.length ≤ 1446 ∧ p.data.length < 4096) ∧
    (∀ (st : ClientState) (cmd res rest2 : List Nat),
      (execute st cmd s).2 = .ok (res, rest2) →
      ∃ p : Packet, recv_text_packet s = .ok (p, rest2) ∧ res = p.data ∧
        p.request_id = st.i ∧ p.type = 0) := by
  constructor
  · intro p rest h
    have := recv_text_packet_data_le h
    exact ⟨this, by omega⟩
  · intro st cmd res rest2 h
    simp only [execute] at h
    cases hs : send_text_packet st.i 2 cmd with
    | error e =>
      rw [hs] at h
      simp at h
    | ok w =>
      rw [hs] at h
      simp only [] at h
      cases hr : recv_text_packet s with
      | error e =>
        rw [executeLoop_eq_error hr] at h
        simp at h
      | ok pr =>
        obtain ⟨p, rest⟩ := pr
        rw [executeLoop_eq_ok hr] at h
        by_cases h1 : p.request_id = st.i
        · by_cases h2 : p.type = 0
          · rw [if_neg (by simp [h1]), if_neg (by simp [h2]),
              if_pos (show p.data.length < 4096 by
                have := recv_text_packet_data_le hr; omega)] at h
            injection h with h'
            injection h' with ha hb
            subst hb
            exact ⟨p, rfl, by simp [← ha], h1, h2⟩
          · rw [if_neg (by simp [h1]), if_pos h2] at h
            simp at h
        · rw [if_pos h1] at h
          simp at h

/-- Witness for `C2_single_fragment` at a concrete stream. -/
theorem C2_single_fragment_witness :
    ((⟨3, 0, [72]⟩ : Packet).data.length ≤ 1446 ∧
      (⟨3, 0, [72]⟩ : Packet).data.length < 4096) ∧
    ∃ p : Packet, recv_text_packet (frameBytes 3 0 [72, 0]) = .ok (p, []) ∧
      ([72] : List Nat) = p.data ∧ p.request_id = (⟨3⟩ : ClientState).i ∧ p.type = 0 := by
  have hr : recv_text_packet (frameBytes 3 0 [72, 0]) = .ok (⟨3, 0, [72]⟩, []) := by decide
  have hex : (execute ⟨3⟩ [] (frameBytes 3 0 [72, 0])).2 = .ok ([72], []) := by
    rw [execute_eq_loop (send_text_packet_ok _ _ _ (by decide) (by decide) (by decide)
      (by decide) (by decide))]
    rw [executeLoop_eq_ok hr]
    simp
  exact ⟨(C2_single_fragment _).1 _ _ hr,
    (C2_single_fragment _).2 ⟨3⟩ [] [72] [] hex⟩

/-- Claim C3, counterexample. The claim quantifies the round trip over all
payloads of at most 4096 bytes, but decoding in this client only exists as
`_recv_packet` on a framed stream, and that rejects any declared length
above 1455: a 4096-byte payload encodes to a frame of declared length
4105, which fails to decode with `tooBigPacket` instead of round-tripping. -/
theorem C3_counterexample :
    send_packet 0 0 (.bytes (List.replicate 4096 65)) =
      .ok (frameBytes 0 0 (List.replicate 4096 65)) ∧
    recv_packet (frameBytes 0 0 (List.replicate 4096 65)) =
      .error (.tooBigPacket 4105) := by
  constructor
  · have key := send_packet_ok 0 0 (.bytes (List.replicate 4096 65))
      (by simp only [PData.asBytes, List.length_replicate]; omega)
      (by decide) (by decide) (by decide) (by decide)
    simpa only [PData.asBytes] using key
  · have key := recv_packet_frameBytes_tooBig 0 0 (List.replicate 4096 65) []
      (by simp only [List.length_replicate]; omega)
      (by simp only [List.length_replicate]; omega)
    have hlen : (List.replicate (4096 : Nat) (65 : Nat)).length + 9 = 4105 := by
      simp only [List.length_replicate]
    rw [hlen] at key
    simpa only [List.append_nil] using key

/-- Claim C3, amended. The round trip holds on the domain the receive path
accepts: for the generic pair, any raw payload of at most 1446 bytes
(so that the frame's declared length fits the `≤ 1455` bound); for the
text pair, any null-free text of at most 1445 bytes (its null terminator
joins the payload). Request id and type round-trip for all 32-bit signed
values. -/
theorem C3_amended {request_id ptype : Int} (d text : List Nat)
    (hid1 : -(2 ^ 31) ≤ request_id) (hid2 : request_id < 2 ^ 31)
    (hty1 : -(2 ^ 31) ≤ ptype) (hty2 : ptype < 2 ^ 31)
    (hd : d.length ≤ 1446) (htext : text.length ≤ 1445) (hz : ¬ 0 ∈ text) :
    (∃ w, send_packet request_id ptype (.bytes d) = .ok w ∧
      recv_packet w = .ok (⟨request_id, ptype, d⟩, [])) ∧
    (∃ w, send_text_packet request_id ptype text = .ok w ∧
      recv_text_packet w = .ok (⟨request_id, ptype, text⟩, [])) := by
  constructor
  · refine ⟨frameBytes request_id ptype d, ?_, ?_⟩
    · have key := send_packet_ok _ _ (.bytes d)
        (by simp only [PData.asBytes]; omega) hid1 hid2 hty1 hty2
      simpa only [PData.asBytes] using key
    · have key := recv_packet_encoded d [] hid1 hid2 hty1 hty2 hd
      simpa only [List.append_nil] using key
  · refine ⟨frameBytes request_id ptype (text ++ [0]),
      send_text_packet_ok _ _ _ (by omega) hid1 hid2 hty1 hty2, ?_⟩
    have hrp : recv_packet (frameBytes request_id ptype (text ++ [0])) =
        .ok (⟨request_id, ptype, text ++ [0]⟩, []) := by
      have key := recv_packet_encoded (text ++ [0]) [] hid1 hid2 hty1 hty2
        (by simp only [List.length_append, List.length_cons, List.length_nil]; omega)
      simpa only [List.append_nil] using key
    rw [recv_text_packet_eq_of_ok hrp, if_pos (contains_zero_append_zero text)]
    have htw : ((⟨request_id, ptype, text ++ [0]⟩ : Packet).data).takeWhile
        (fun b => b != 0) = text := takeWhile_ne_zero_append_zero hz
    rw [htw]

/-- Witness for `C3_amended` at a concrete id, type, raw payload and
text payload. -/
theorem C3_amended_witness :
    (∃ w, send_packet (-2) 0 (.bytes [1, 2, 3]) = .ok w ∧
      recv_packet w = .ok (⟨-2, 0, [1, 2, 3]⟩, [])) ∧
    (∃ w, send_text_packet (-2) 0 [104, 105] = .ok w ∧
      recv_text_packet w = .ok (⟨-2, 0, [104, 105]⟩, [])) :=
  C3_amended [1, 2, 3] [104, 105] (by decide) (by decide) (by decide) (by decide)
    (by decide) (by decide) (by decide)

/-- Claim C4: after a successful password send, `login` succeeds exactly
when the received packet echoes the request id it sent, and fails with the
authentication error (`invalidRequestId`) on any mismatch — the response
packet's `type` is never examined (`p.type` is unconstrained here). -/
theorem C4_login_auth {st : ClientState} {password input : List Nat} {p : Packet}
    {rest : List Nat}
    (hi1 : -(2 ^ 31) ≤ st.i) (hi2 : st.i < 2 ^ 31)
    (hpw : password.length ≤ 4095)
    (hr : recv_packet input = .ok (p, rest)) :
    ((login st password input).2 = .ok rest ↔ p.request_id = st.i) ∧
    (p.request_id ≠ st.i →
      (login st password input).2 = .error (.invalidRequestId st.i p.request_id)) := by
  have hs := send_text_packet_ok st.i 3 password hpw hi1 hi2
    (by norm_num) (by norm_num)
  rw [login_eq_recv hs]
  simp only [hr]
  constructor
  · constructor
    · intro h
      by_contra hne
      rw [if_pos hne] at h
      cases h
    · intro he
      rw [if_neg (not_not_intro he)]
  · intro hne
    rw [if_pos hne]

/-- Witness for `C4_login_auth`: a matching echo logs in, a mismatched
echo is an authentication failure. -/
theorem C4_login_auth_witness :
    (login ⟨0⟩ [] (frameBytes 0 5 [])).2 = .ok [] ∧
    (login ⟨0⟩ [] (frameBytes 9 5 [])).2 = .error (.invalidRequestId 0 9) := by
  have hr1 : recv_packet (frameBytes 0 5 []) = .ok (⟨0, 5, []⟩, []) := by decide
  have hr2 : recv_packet (frameBytes 9 5 []) = .ok (⟨9, 5, []⟩, []) := by decide
  constructor
  · exact ((C4_login_auth (by decide) (by decide) (by decide) hr1).1).mpr rfl
  · exact (C4_login_auth (by decide) (by decide) (by decide) hr2).2 (by decide)

/-- Claim C5: declared length 8 is rejected (below the minimum 9) and
1456 is rejected (above the maximum 1455), whatever bytes follow;
declared lengths 9 and 1455 are structurally accepted when the body is
fully present; a body shorter than declared, or a stream too short for
the 4-byte prefix, is also a framing error. -/
theorem C5_framing_bounds (body : List Nat) :
    recv_packet (natToU32LE 8 ++ body) = .error (.tooSmallPacket 8) ∧
    recv_packet (natToU32LE 1456 ++ body) = .error (.tooBigPacket 1456) ∧
    (body.length = 9 → ∃ p, recv_packet (natToU32LE 9 ++ body) = .ok (p, [])) ∧
    (body.length = 1455 → ∃ p, recv_packet (natToU32LE 1455 ++ body) = .ok (p, [])) ∧
    (∀ n : Nat, 9 ≤ n → n ≤ 1455 → body.length < n →
      recv_packet (natToU32LE n ++ body) = .error (.lengthMismatch n body.length)) ∧
    (∀ s : List Nat, s.length < 4 → recv_packet s = .error (.badLengthRead s.length)) :=
  ⟨recv_packet_declared_tooSmall body (by omega),
    recv_packet_declared_tooBig body (by omega) (by omega),
    fun h => ⟨_, recv_packet_declared_ok body (by omega) (by omega) h⟩,
    fun h => ⟨_, recv_packet_declared_ok body (by omega) (by omega) h⟩,
    fun _ h9 h1455 hshort => recv_packet_declared_mismatch body h9 h1455 hshort,
    fun _ h => recv_packet_badRead h⟩

/-- Witness for `C5_framing_bounds` at concrete bodies of lengths 9 and
1455. -/
theorem C5_framing_bounds_witness :
    recv_packet (natToU32LE 8 ++ List.replicate 9 1) = .error (.tooSmallPacket 8) ∧
    recv_packet (natToU32LE 1456 ++ List.replicate 9 1) = .error (.tooBigPacket 1456) ∧
    (∃ p, recv_packet (natToU32LE 9 ++ List.replicate 9 1) = .ok (p, [])) ∧
    (∃ p, recv_packet (natToU32LE 1455 ++ List.replicate 1455 1) = .ok (p, [])) ∧
    recv_packet (natToU32LE 10 ++ List.replicate 9 1) = .error (.lengthMismatch 10 9) ∧
    recv_packet [0, 0] = .error (.badLengthRead 2) := by
  refine ⟨(C5_framing_bounds (List.replicate 9 1)).1,
    (C5_framing_bounds (List.replicate 9 1)).2.1,
    (C5_framing_bounds (List.replicate 9 1)).2.2.1 (by simp only [List.length_replicate]),
    (C5_framing_bounds (List.replicate 1455 1)).2.2.2.1 (by simp only [List.length_replicate]),
    ?_, ?_⟩
  · have key := (C5_framing_bounds (List.replicate 9 1)).2.2.2.2.1 10
      (by omega) (by omega) (by simp only [List.length_replicate]; omega)
    simpa only [List.length_replicate] using key
  · have key := (C5_framing_bounds []).2.2.2.2.2 [0, 0] (by simp)
    simpa using key

/-- Claim C6: the request-id counter is one shared field: both `login` and
`execute` leave it incremented by exactly one, on every call including
those whose send or receive later fails (`input` is arbitrary here);
`login` does not reset it, a `login` followed by an `execute` leaves it
at `st.i + 2`, and after a login that sent id 0 the next allocated id
is 1. -/
theorem C6_request_counter (st : ClientState) (pw cmd input input2 : List Nat) :
    (login st pw input).1 = ⟨st.i + 1⟩ ∧
    (execute st cmd input).1 = ⟨st.i + 1⟩ ∧
    (execute (login st pw input).1 cmd input2).1 = ⟨st.i + 2⟩ ∧
    (login ⟨0⟩ pw input).1 = ⟨1⟩ := by
  refine ⟨rfl, rfl, ?_, rfl⟩
  show (⟨st.i + 1 + 1⟩ : ClientState) = ⟨st.i + 2⟩
  congr 1
  omega

/-- Claim C7: `_build_packet` rejects any encoded payload of 4097 bytes or
more with the PayloadTooLarge error and accepts exactly 4096 bytes; the
text-specific sender appends the null terminator before the size check,
so its effective budget is 4095 text bytes plus the terminator, and a
4096-byte text fails. -/
theorem C7_payload_bounds (request_id ptype : Int) (d t : List Nat)
    (hid1 : -(2 ^ 31) ≤ request_id) (hid2 : request_id < 2 ^ 31)
    (hty1 : -(2 ^ 31) ≤ ptype) (hty2 : ptype < 2 ^ 31) :
    (4097 ≤ d.length →
      build_packet request_id ptype (.bytes d) = .error (.tooLargeData d.length)) ∧
    (d.length = 4096 →
      build_packet request_id ptype (.bytes d) =
        .ok (intToI32LE request_id ++ intToI32LE ptype ++ d ++ [0])) ∧
    (t.length ≤ 4095 → ∃ w, send_text_packet request_id ptype t = .ok w) ∧
    (4096 ≤ t.length →
      send_text_packet request_id ptype t = .error (.tooLargeData (t.length + 1))) := by
  refine ⟨?_, ?_, ?_, ?_⟩
  · intro h
    simp only [build_packet, PData.asBytes]
    rw [if_pos (by omega)]
  · intro h
    have key := build_packet_ok _ _ (.bytes d)
      (by simp only [PData.asBytes]; omega) hid1 hid2 hty1 hty2
    simpa only [PData.asBytes] using key
  · intro h
    exact ⟨_, send_text_packet_ok _ _ _ h hid1 hid2 hty1 hty2⟩
  · intro h
    have hb : build_packet request_id ptype (.bytes (t ++ [0])) =
        .error (.tooLargeData (t ++ [0]).length) := by
      simp only [build_packet, PData.asBytes]
      rw [if_pos (by simp only [List.length_append, List.length_cons,
        List.length_nil]; omega)]
    unfold send_text_packet send_packet
    simp only [hb, List.length_append, List.length_cons, List.length_nil]

/-- Witness for `C7_payload_bounds` at the boundary sizes 4095, 4096 and
4097. -/
theorem C7_payload_bounds_witness :
    build_packet 0 2 (.bytes (List.replicate 4097 7)) = .error (.tooLargeData 4097) ∧
    build_packet 0 2 (.bytes (List.replicate 4096 7)) =
      .ok (intToI32LE 0 ++ intToI32LE 2 ++ List.replicate 4096 7 ++ [0]) ∧
    (∃ w, send_text_packet 0 2 (List.replicate 4095 7) = .ok w) ∧
    send_text_packet 0 2 (List.replicate 4096 7) = .error (.tooLargeData 4097) := by
  refine ⟨?_, ?_, ?_, ?_⟩
  · have key := (C7_payload_bounds 0 2 (List.replicate 4097 7) [] (by decide) (by decide)
      (by decide) (by decide)).1 (by simp only [List.length_replicate]; omega)
    simpa only [List.length_replicate] using key
  · exact (C7_payload_bounds 0 2 (List.replicate 4096 7) [] (by decide) (by decide)
      (by decide) (by decide)).2.1 (by simp only [List.length_replicate])
  · exact (C7_payload_bounds 0 2 [] (List.replicate 4095 7) (by decide) (by decide)
      (by decide) (by decide)).2.2.1 (by simp only [List.length_replicate]; omega)
  · have key := (C7_payload_bounds 0 2 [] (List.replicate 4096 7) (by decide) (by decide)
      (by decide) (by decide)).2.2.2 (by simp only [List.length_replicate]; omega)
    have hl : (List.replicate (4096 : Nat) (7 : Nat)).length + 1 = 4097 := by
      simp only [List.length_replicate]
    rw [hl] at key
    exact key

/-- Claim C8: in the execute receive loop a mismatched request id fails
with the correlation error (`invalidRequestId`) before anything is
appended — the failure is the same for every accumulator value `acc`, so
the accumulated result is untouched; a matching id with a type other than
RESPONSE (0) fails with `invalidResponseType`; only when both checks pass
is the fragment's data appended to the accumulator. -/
theorem C8_correlation_checks {i : Int} (acc : List Nat) {input : List Nat}
    {p : Packet} {rest : List Nat}
    (hr : recv_text_packet input = .ok (p, rest)) :
    (p.request_id ≠ i →
      executeLoop i input acc = .error (.invalidRequestId i p.request_id)) ∧
    (p.request_id = i → p.type ≠ 0 →
      executeLoop i input acc = .error (.invalidResponseType p.type)) ∧
    (p.request_id = i → p.type = 0 →
      executeLoop i input acc = .ok (acc ++ p.data, rest)) := by
  refine ⟨?_, ?_, ?_⟩
  · intro hne
    rw [executeLoop_eq_ok hr, if_pos hne]
  · intro he hty
    rw [executeLoop_eq_ok hr, if_neg (not_not_intro he), if_pos hty]
  · intro he hty
    rw [executeLoop_eq_ok hr, if_neg (not_not_intro he), if_neg (not_not_intro hty),
      if_pos (show p.data.length < 4096 by
        have := recv_text_packet_data_le hr; omega)]

/-- Witness for `C8_correlation_checks`: a wrong id, a wrong type, and a
passing fragment, on concrete streams. -/
theorem C8_correlation_checks_witness :
    executeLoop 1 (frameBytes 5 0 [65, 0]) [] = .error (.invalidRequestId 1 5) ∧
    executeLoop 1 (frameBytes 1 3 [65, 0]) [] = .error (.invalidResponseType 3) ∧
    executeLoop 1 (frameBytes 1 0 [65, 0]) [9] = .ok ([9, 65], []) := by
  have h1 : recv_text_packet (frameBytes 5 0 [65, 0]) = .ok (⟨5, 0, [65]⟩, []) := by decide
  have h2 : recv_text_packet (frameBytes 1 3 [65, 0]) = .ok (⟨1, 3, [65]⟩, []) := by decide
  have h3 : recv_text_packet (frameBytes 1 0 [65, 0]) = .ok (⟨1, 0, [65]⟩, []) := by decide
  refine ⟨(C8_correlation_checks [] h1).1 (by decide),
    (C8_correlation_checks [] h2).2.1 rfl (by decide), ?_⟩
  have key := (C8_correlation_checks [9] h3).2.2 rfl rfl
  simpa using key

/-- Claim C9: the text decode requires a null byte in the decoded data.
When one is present it returns exactly the bytes preceding the first null
(the returned data is null-free and the original data is the returned
data, a null, then a tail) with id and type unchanged; when no null is
present it fails with `notZeroTerminated` (MissingTerminator). -/
theorem C9_text_terminator {s : List Nat} {p : Packet} {rest : List Nat}
    (h : recv_packet s = .ok (p, rest)) :
    (0 ∈ p.data → ∃ (q : Packet) (t : List Nat),
      recv_text_packet s = .ok (q, rest) ∧
      q.request_id = p.request_id ∧ q.type = p.type ∧
      p.data = q.data ++ 0 :: t ∧ ¬ 0 ∈ q.data) ∧
    (¬ 0 ∈ p.data → recv_text_packet s = .error .notZeroTerminated) := by
  constructor
  · intro hm
    obtain ⟨t, ht, hnm⟩ := take_until_zero_split hm
    refine ⟨{ p with data := p.data.takeWhile (fun b => b != 0) }, t, ?_, rfl, rfl, ht, hnm⟩
    rw [recv_text_packet_eq_of_ok h, if_pos (contains_zero_of_mem hm)]
  · intro hnm
    rw [recv_text_packet_eq_of_ok h, if_neg (not_contains_zero_of_not_mem hnm)]

/-- Witness for `C9_text_terminator`: one data with an interior null, one
with none. -/
theorem C9_text_terminator_witness :
    (∃ (q : Packet) (t : List Nat),
      recv_text_packet (frameBytes 2 0 [65, 0, 66]) = .ok (q, []) ∧
      q.request_id = (⟨2, 0, [65, 0, 66]⟩ : Packet).request_id ∧
      q.type = (⟨2, 0, [65, 0, 66]⟩ : Packet).type ∧
      (⟨2, 0, [65, 0, 66]⟩ : Packet).data = q.data ++ 0 :: t ∧ ¬ 0 ∈ q.data) ∧
    recv_text_packet (frameBytes 2 0 [65, 66]) = .error .notZeroTerminated := by
  have h1 : recv_packet (frameBytes 2 0 [65, 0, 66]) = .ok (⟨2, 0, [65, 0, 66]⟩, []) := by
    decide
  have h2 : recv_packet (frameBytes 2 0 [65, 66]) = .ok (⟨2, 0, [65, 66]⟩, []) := by decide
  exact ⟨(C9_text_terminator h1).1 (by decide), (C9_text_terminator h2).2 (by decide)⟩

/-- Claim C10: for an accepted frame body, decode reads bytes 0..4 as the
little-endian signed 32-bit request id, bytes 4..8 likewise as the type,
and bytes 8..(len − 1) as the data, dropping exactly one trailing pad
byte whose value is never inspected (`pad` is arbitrary here). -/
theorem C10_decode_layout (b0 b1 b2 b3 t0 t1 t2 t3 pad : Nat) (payload rest0 : List Nat)
    (hlen : payload.length ≤ 1446) :
    recv_packet (natToU32LE (payload.length + 9) ++
        ([b0, b1, b2, b3] ++ ([t0, t1, t2, t3] ++ (payload ++ [pad]))) ++ rest0) =
      .ok ({ request_id := i32ofBytesLE [b0, b1, b2, b3],
             type := i32ofBytesLE [t0, t1, t2, t3],
             data := payload }, rest0) := by
  have hblen : ([b0, b1, b2, b3] ++ ([t0, t1, t2, t3] ++ (payload ++ [pad]))).length
      = payload.length + 9 := by
    simp only [List.length_append, List.length_cons, List.length_nil]
    omega
  have key := recv_packet_frame (n := payload.length + 9)
    ([b0, b1, b2, b3] ++ ([t0, t1, t2, t3] ++ (payload ++ [pad]))) rest0
    (by omega) (by omega) hblen
  rw [key]
  have e2 : ([b0, b1, b2, b3] ++ ([t0, t1, t2, t3] ++ (payload ++ [pad]))).drop 4
      = [t0, t1, t2, t3] ++ (payload ++ [pad]) :=
    List.drop_left' (show ([b0, b1, b2, b3] : List Nat).length = 4 from rfl)
  have e5 : ([b0, b1, b2, b3] ++ ([t0, t1, t2, t3] ++ (payload ++ [pad]))).drop 8
      = payload ++ [pad] := by
    rw [show (8 : Nat) = 4 + 4 from rfl, ← List.drop_drop, e2,
      List.drop_left' (show ([t0, t1, t2, t3] : List Nat).length = 4 from rfl)]
  rw [List.take_left' (show ([b0, b1, b2, b3] : List Nat).length = 4 from rfl), e2,
    List.take_left' (show ([t0, t1, t2, t3] : List Nat).length = 4 from rfl), e5,
    List.dropLast_concat]

/-- Witness for `C10_decode_layout` with a nonzero pad byte, showing the
pad's value is not checked. -/
theorem C10_decode_layout_witness :
    recv_packet (natToU32LE ((([65, 66] : List Nat)).length + 9) ++
        ([1, 0, 0, 0] ++ ([0, 0, 0, 0] ++ ([65, 66] ++ [77]))) ++ []) =
      .ok ({ request_id := 1, type := 0, data := [65, 66] }, []) := by
  have key := C10_decode_layout 1 0 0 0 0 0 0 0 77 [65, 66] [] (by decide)
  have h1 : i32ofBytesLE [1, 0, 0, 0] = 1 := by decide
  have h2 : i32ofBytesLE [0, 0, 0, 0] = 0 := by decide
  rw [h1, h2] at key
  exact key

example : bytesToNatLE [9, 16, 0, 0] = 4105 := by decide
example : natToU32LE 4105 = [9, 16, 0, 0] := by decide
example : i32ofBytesLE [255, 255, 255, 255] = -1 := by decide
example : intToI32LE (-1) = [255, 255, 255, 255] := by decide

example :
    recv_packet (natToU32LE 10 ++ intToI32LE 7 ++ intToI32LE 0 ++ [65, 0]) =
      .ok (⟨7, 0, [65]⟩, []) := by decide

example :
    recv_text_packet (natToU32LE 11 ++ intToI32LE 7 ++ intToI32LE 0 ++ [65, 0, 0]) =
      .ok (⟨7, 0, [65]⟩, []) := by decide

example : recv_packet (natToU32LE 8 ++ [1, 2]) = .error (.tooSmallPacket 8) := by decide

example : build_packet 5 2 (.bytes [1, 2, 3]) =
    .ok (intToI32LE 5 ++ intToI32LE 2 ++ [1, 2, 3] ++ [0]) := by decide

end RCON
